import Mathlib

/-!
Shallow embedding of the budget-tool repository (src/src/budget) and proofs
about its normalization, aggregation and row-codec logic.

Modelling conventions:
* Python floats are modelled as rationals (ℚ): every arithmetic operation the
  source performs (addition, division, comparison) is exact here, and the
  claims phrased "within floating tolerance" become exact statements.
* Python exceptions are modelled with `Except String`, carrying the message
  text of the `raise` in the source.
* The enum types `ExpenseCategory`, `ExpensePriority`, `IncomeCategory` are
  string Literal types in the source (they are consumed with
  `typing.get_args` and compared to raw strings such as "necessity").
  Their defining module `typedefs.py` is not present under src/, so the
  value sets are modelled from the spec (see the individual doc comments).
* The `currencies.Currency` collaborator is opaque; it is modelled by the
  single accessor the source uses (`money_currency`).
-/

/-- Modelled from the spec: `typedefs.py` (the module defining the
`ExpenseCategory` Literal string type) is not under src/. The value set is
spec section 3; lowercase spellings follow the convention visible in the
source, where the `ExpensePriority` default is the literal "necessity". -/
def expenseCategoryStrings : List String :=
  ["automotive", "charity", "dining", "education", "financial_services",
   "fun", "gifts", "groceries", "home_and_garden", "housing",
   "legal_services", "lending", "loan_payments", "medical", "pets",
   "rainy_day", "rent", "travel", "utilities", "wellbeing"]

/-- Modelled from the spec: the `IncomeCategory` Literal values, spec section 3. -/
def incomeCategoryStrings : List String :=
  ["gifts", "investments", "job", "reimbursement", "rent", "sale", "side_hustle"]

/-- Modelled from the spec: the `ExpensePriority` Literal values, spec section 3.
The source itself shows the value "necessity" (the dataclass default). -/
def expensePriorityStrings : List String :=
  ["necessity", "negotiable", "luxury"]

/-- `CalendarTimeUnits = Literal["months", "years"]` from calendar_time.py. -/
def calendarTimeUnitStrings : List String :=
  ["months", "years"]

/-- The `CalendarTime` dataclass from calendar_time.py.  The `unit` field is a
string in Python (a Literal type is not enforced at run time), so it is a
`String` here; `__post_init__` validation is `CalendarTime.mkChecked` below. -/
structure CalendarTime where
  value : Int
  unit : String
deriving DecidableEq

/-- `CalendarTime.__post_init__`: raises ValueError when `value <= 0`. -/
def CalendarTime.mkChecked (value : Int) (unit : String) : Except String CalendarTime :=
  if value ≤ 0 then .error "Calendar time must be at least one!"
  else .ok { value := value, unit := unit }

/-- The opaque `currencies.Currency` collaborator, reduced to the one accessor
the source reads: `money_currency` (the code string, or None). -/
structure Currency where
  money_currency : Option String
deriving DecidableEq

/-- Modelled from the spec: the currency lookup constructor `Currency(code)`;
the spec says it returns a value exposing a stable code accessor. -/
def Currency.ofCode (code : String) : Currency :=
  { money_currency := some code }

/-- The message of the TypeError in `_PlannedItem.get_normalized_monthly_amount`. -/
def calendarUnitErrorMsg : String :=
  "A CalendarTime\x27s unit attribute was set to an unsupported value! Please only use \x27months\x27 or \x27years\x27 for this field."

/-- `_PlannedItem.get_normalized_monthly_amount`, as a function of the two
fields it reads.  Branch order follows the source: None, then "years",
then "months", else TypeError. -/
def get_normalized_monthly_amount (amount : ℚ) (recurrence : Option CalendarTime) :
    Except String ℚ :=
  match recurrence with
  | none => .ok amount
  | some r =>
    if r.unit = "years" then .ok (amount / (12 * (r.value : ℚ)))
    else if r.unit = "months" then .ok (amount / (r.value : ℚ))
    else .error calendarUnitErrorMsg

/-- The `PlannedExpense` dataclass (its own fields plus the `_PlannedItem`
base fields).  `category` and `priority` are Literal strings in the source. -/
structure PlannedExpense where
  name : String
  amount : ℚ
  recurrence : Option CalendarTime
  currency : Currency
  category : String
  priority : String
  savings_goal : Option String
deriving DecidableEq

/-- The `PlannedIncome` dataclass.  The `post_tax` field is annotated `bool`
in the source but `from_budget_row` assigns the raw row string to it (with a
type-ignore comment), so the field is modelled as `Bool ⊕ String`: `inl` is a
genuine boolean, `inr` is a string that slipped in through decoding. -/
structure PlannedIncome where
  name : String
  amount : ℚ
  recurrence : Option CalendarTime
  currency : Currency
  category : String
  post_tax : Bool ⊕ String
deriving DecidableEq

/-- Python truthiness of a `post_tax` value, used when encoding
(`"true" if self.post_tax else "false"`): a genuine bool is itself, a string
is truthy when non-empty. -/
def pyTruthy : Bool ⊕ String → Bool
  | .inl b => b
  | .inr s => decide (s ≠ "")

/-- An entry of a Budget: `PlannedExpense | PlannedIncome`. -/
inductive Entry where
  | expense : PlannedExpense → Entry
  | income : PlannedIncome → Entry
deriving DecidableEq

/-- Dispatch of `get_normalized_monthly_amount` over the two entry variants. -/
def Entry.get_norm : Entry → Except String ℚ
  | .expense e => get_normalized_monthly_amount e.amount e.recurrence
  | .income i => get_normalized_monthly_amount i.amount i.recurrence

/-- The `_BudgetRow` TypedDict.  String-typed columns stay strings.  The
`amount` column holds the parsed numeric value (see `quantize2` for the
format/parse composition) and `recurrence_value` holds the parsed integer,
`none` standing for the blank string (the source writes `str(value)` and
reads `int(...)`, whose composition is the identity on integers). -/
structure BudgetRow where
  income_or_expense : String
  name : String
  category : String
  amount : ℚ
  currency : String
  recurrence_value : Option Int
  recurrence_unit : String
  priority : String
  savings_goal : String
  post_tax : String
deriving DecidableEq

/-- The composition of the source's amount codec: writing with the format
string ".2f" and reading back with `float` quantizes the amount to two
decimal digits.  Ties in the source depend on the binary float
representation; every theorem below uses this only where `100 * q` is an
integer, where no rounding happens at all. -/
def quantize2 (q : ℚ) : ℚ :=
  ((round (100 * q) : ℤ) : ℚ) / 100

/-- `PlannedExpense.to_budget_row`. -/
def PlannedExpense.to_budget_row (e : PlannedExpense) : BudgetRow :=
  { income_or_expense := "expense",
    name := e.name,
    category := e.category,
    amount := quantize2 e.amount,
    currency := match e.currency.money_currency with | none => "" | some c => c,
    recurrence_value := e.recurrence.map (fun r => r.value),
    recurrence_unit := match e.recurrence with | none => "" | some r => r.unit,
    priority := e.priority,
    savings_goal := match e.savings_goal with | none => "" | some s => s,
    post_tax := "" }

/-- `PlannedIncome.to_budget_row`. -/
def PlannedIncome.to_budget_row (i : PlannedIncome) : BudgetRow :=
  { income_or_expense := "income",
    name := i.name,
    category := i.category,
    amount := quantize2 i.amount,
    currency := match i.currency.money_currency with | none => "" | some c => c,
    recurrence_value := i.recurrence.map (fun r => r.value),
    recurrence_unit := match i.recurrence with | none => "" | some r => r.unit,
    priority := "",
    savings_goal := "",
    post_tax := if pyTruthy i.post_tax then "true" else "false" }

/-- The message built by `_raise_unexpected_value` in `_validate_budget_row`. -/
def budgetRowValueError (column : String) (value : String) : String :=
  "Unexpected value for column \x27" ++ column ++ "\x27: \x27" ++ value ++ "\x27!"

/-- The coupling error for the recurrence pair in `_validate_budget_row`. -/
def recurrencePairErrorMsg : String :=
  "Either both the recurrence_unit and recurrence_value columns must be blank or neither must be!"

/-- `_validate_budget_row`, check for check in source order.  The
missing-column-header check is structural here (a `BudgetRow` always has all
ten fields), so it cannot fire in the model. -/
def validate_budget_row (row : BudgetRow) : Except String Unit :=
  if row.income_or_expense ∉ ["income", "expense"] then
    .error (budgetRowValueError "income_or_expense" row.income_or_expense)
  else if (row.recurrence_unit = "" ∧ row.recurrence_value ≠ none) ∨
      (row.recurrence_unit ≠ "" ∧ row.recurrence_value = none) then
    .error recurrencePairErrorMsg
  else if row.recurrence_unit ≠ "" ∧ row.recurrence_unit ∉ calendarTimeUnitStrings then
    .error (budgetRowValueError "recurrence_unit" row.recurrence_unit)
  else if row.income_or_expense = "expense" ∧ row.category ∉ expenseCategoryStrings then
    .error (budgetRowValueError "category" row.category)
  else if row.income_or_expense = "expense" ∧ row.priority ∉ expensePriorityStrings then
    .error (budgetRowValueError "priority" row.priority)
  else if row.income_or_expense = "income" ∧ row.category ∉ incomeCategoryStrings then
    .error (budgetRowValueError "category" row.category)
  else if row.income_or_expense = "income" ∧ row.post_tax ∉ ["true", "false"] then
    .error (budgetRowValueError "post_tax" row.post_tax)
  else .ok ()

/-- The ValueError message of `_PlannedItem.__post_init__`. -/
def amountNegativeErrorMsg : String := "Amount must be non-negative!"

/-- The ValueError `int` raises on a blank string; unreachable after
validation but kept to mirror `int(row["recurrence_value"])`. -/
def intParseErrorMsg : String := "invalid literal for int() with base 10"

/-- `PlannedExpense.from_budget_row`: validate, rebuild the recurrence from
the paired columns, then construct the dataclass (whose `__post_init__`
rejects a negative amount).  Note that `savings_goal` receives the raw row
string, so a blank is decoded as `some ""`, never as `none`. -/
def PlannedExpense.from_budget_row (row : BudgetRow) : Except String PlannedExpense := do
  let _ ← validate_budget_row row
  let recurrence ←
    if row.recurrence_unit = "" then pure (none : Option CalendarTime)
    else match row.recurrence_value with
      | some v => (CalendarTime.mkChecked v row.recurrence_unit).map some
      | none => .error intParseErrorMsg
  if row.amount < 0 then .error amountNegativeErrorMsg
  else .ok { name := row.name,
             amount := row.amount,
             recurrence := recurrence,
             currency := Currency.ofCode row.currency,
             category := row.category,
             priority := row.priority,
             savings_goal := some row.savings_goal }

/-- `PlannedIncome.from_budget_row`.  Note that `post_tax` receives the raw
row string (the source silences the type checker on that line), modelled by
`Sum.inr`. -/
def PlannedIncome.from_budget_row (row : BudgetRow) : Except String PlannedIncome := do
  let _ ← validate_budget_row row
  let recurrence ←
    if row.recurrence_unit = "" then pure (none : Option CalendarTime)
    else match row.recurrence_value with
      | some v => (CalendarTime.mkChecked v row.recurrence_unit).map some
      | none => .error intParseErrorMsg
  if row.amount < 0 then .error amountNegativeErrorMsg
  else .ok { name := row.name,
             amount := row.amount,
             recurrence := recurrence,
             currency := Currency.ofCode row.currency,
             category := row.category,
             post_tax := Sum.inr row.post_tax }

/-- The `Budget` object's state: `balance`, `entries`, and the
`allocations` dict, modelled as an association list whose key set is
maintained exactly (Python dicts raise KeyError on absent keys, so the key
set matters).  The always-empty `saving_goals` dict is omitted: no claim and
no code path reads or writes it. -/
structure Budget where
  balance : ℚ
  entries : List Entry
  allocations : List (String × ℚ)
deriving DecidableEq

/-- The initial allocations dict: one key per ExpenseCategory value, all 0.0. -/
def allocationsInit : List (String × ℚ) :=
  expenseCategoryStrings.map (fun c => (c, 0))

/-- Dict read `self.allocations[category]`: KeyError when the key is absent. -/
def allocGet (alloc : List (String × ℚ)) (cat : String) : Except String ℚ :=
  match alloc.find? (fun kv => kv.1 = cat) with
  | some kv => .ok kv.2
  | none => .error "KeyError"

/-- Dict write `self.allocations[category] = v` on an existing key. -/
def allocSet (alloc : List (String × ℚ)) (cat : String) (v : ℚ) : List (String × ℚ) :=
  alloc.map (fun kv => if kv.1 = cat then (kv.1, v) else kv)

/-- The TypeError message of `Budget.__init__`. -/
def budgetTypeErrorMsg : String :=
  "Entries must be either a PlannedExpense or PlannedIncome object!"

/-- A positional argument to `Budget(*entries)` as Python sees it: either an
actual entry, or any other object (which the isinstance check rejects). -/
inductive BudgetArg where
  | entry : Entry → BudgetArg
  | other : BudgetArg
deriving DecidableEq

/-- The `Budget.__init__` loop over the positional arguments.  For an
expense, `self.allocations[entry.category] += entry.get_normalized_monthly_amount()`
evaluates the dict read first (KeyError), then the normalization (TypeError),
then stores the sum back. -/
def budgetInitLoop (alloc : List (String × ℚ)) :
    List BudgetArg → Except String (List (String × ℚ))
  | [] => .ok alloc
  | .other :: _ => .error budgetTypeErrorMsg
  | .entry (.income _) :: rest => budgetInitLoop alloc rest
  | .entry (.expense e) :: rest => do
      let current ← allocGet alloc e.category
      let amt ← get_normalized_monthly_amount e.amount e.recurrence
      budgetInitLoop (allocSet alloc e.category (current + amt)) rest

/-- `Budget.__init__`: store the entries in argument order, run the
allocation loop, produce the object (or propagate the exception). -/
def Budget.ofArgs (args : List BudgetArg) : Except String Budget := do
  let alloc ← budgetInitLoop allocationsInit args
  .ok { balance := 0,
        entries := args.filterMap (fun a => match a with
          | .entry e => some e
          | .other => none),
        allocations := alloc }

/-- `Budget(*entries)` applied to actual entries only. -/
def Budget.ofEntries (es : List Entry) : Except String Budget :=
  Budget.ofArgs (es.map BudgetArg.entry)

/-- The accumulation loop of `Budget.get_monthly_gross`. -/
def grossLoop (gross : ℚ) : List Entry → Except String ℚ
  | [] => .ok gross
  | e :: rest => do
      let n ← e.get_norm
      grossLoop (gross + (match e with | .expense _ => -1 | .income _ => 1) * n) rest

/-- `Budget.get_monthly_gross`. -/
def Budget.get_monthly_gross (b : Budget) : Except String ℚ :=
  grossLoop 0 b.entries

/-- `Budget.get_total_monthly_expense`: folds the raw `amount` of every
PlannedExpense entry. -/
def Budget.get_total_monthly_expense (b : Budget) : ℚ :=
  b.entries.foldl (fun acc e => match e with
    | .expense x => acc + x.amount
    | .income _ => acc) 0

/-- `math.isclose(a, b)` with the default tolerances `rel_tol=1e-9`,
`abs_tol=0.0`: true when `|a - b| <= max(rel_tol * max(|a|, |b|), abs_tol)`. -/
def mathIsClose (a b : ℚ) : Bool :=
  decide (|a - b| ≤ max ((1 / 1000000000) * max |a| |b|) 0)

/-- The RuntimeError message of `Budget.get_monthly_expenses_as_fraction`. -/
def fractionsErrorMsg : String :=
  "Attempted to call \x27get_monthly_expenses_as_fraction()\x27 without any non-zero monthly expenses registered to the Budget yet!"

/-- `Budget.get_monthly_expenses_as_fraction`. -/
def Budget.get_monthly_expenses_as_fraction (b : Budget) :
    Except String (List (String × ℚ)) :=
  let total := b.get_total_monthly_expense
  if mathIsClose total 0 then .error fractionsErrorMsg
  else .ok (b.allocations.map (fun kv => (kv.1, kv.2 / total)))

/-- Row encoding dispatch used by `export_file`. -/
def Entry.to_budget_row : Entry → BudgetRow
  | .expense e => e.to_budget_row
  | .income i => i.to_budget_row

/-- Python's `str.endswith`, modelled on the character list (Lean's own
`String.endsWith` goes through byte positions that do not reduce well in
the kernel; suffix-of on the character list is the same predicate). -/
def pyEndsWith (s suffix : String) : Bool :=
  suffix.data.isSuffixOf s.data

/-- The extension test both file methods perform:
`path.endswith(".csv") or path.endswith(".CSV")`. -/
def csvExtensionOk (path : String) : Bool :=
  pyEndsWith path ".csv" || pyEndsWith path ".CSV"

/-- The ValueError message of the extension check. -/
def pathExtensionErrorMsg : String :=
  "The provided path must point to a file ending in \x27.csv\x27!"

/-- `Budget.export_file`: check the extension, then write one row per entry
in entry order.  The produced file content is modelled as the list of rows
(the header and the csv string escaping belong to the csv library). -/
def Budget.export_file (b : Budget) (path : String) : Except String (List BudgetRow) :=
  if !(csvExtensionOk path) then .error pathExtensionErrorMsg
  else .ok (b.entries.map Entry.to_budget_row)

/-- The row-reading loop of `Budget.from_file`, dispatching on the
`income_or_expense` tag and accumulating decoded entries in file order. -/
def fromFileLoop (acc : List Entry) : List BudgetRow → Except String (List Entry)
  | [] => .ok acc
  | row :: rest =>
    if row.income_or_expense = "expense" then do
      let e ← PlannedExpense.from_budget_row row
      fromFileLoop (acc ++ [Entry.expense e]) rest
    else if row.income_or_expense = "income" then do
      let i ← PlannedIncome.from_budget_row row
      fromFileLoop (acc ++ [Entry.income i]) rest
    else .error (budgetRowValueError "income_or_expense" row.income_or_expense)

/-- `Budget.from_file`: check the extension, decode every row (errors
propagate), then — exactly as the source does — return `cls()`: a Budget
built from no arguments, discarding the decoded entries list. -/
def Budget.from_file (path : String) (rows : List BudgetRow) : Except String Budget :=
  if !(csvExtensionOk path) then .error pathExtensionErrorMsg
  else do
    let _entries ← fromFileLoop [] rows
    Budget.ofArgs []

/-! Spec-side definitions.  These restate formulas from the specification's
words (normalization formula, per-category sums, the case-insensitive
extension reading) for comparison against the source translations above. -/

/-- The spec's normalization formula (section 4.2), as a total function on
valid recurrences: null keeps the amount, `(v, years)` divides by `12*v`,
`(v, months)` divides by `v`. -/
def specNormalizedMonthly (amount : ℚ) (recurrence : Option CalendarTime) : ℚ :=
  match recurrence with
  | none => amount
  | some r => if r.unit = "years" then amount / (12 * (r.value : ℚ))
              else amount / (r.value : ℚ)

/-- Spec-side normalized monthly amount of an entry. -/
def Entry.normSpec : Entry → ℚ
  | .expense e => specNormalizedMonthly e.amount e.recurrence
  | .income i => specNormalizedMonthly i.amount i.recurrence

/-- The sign the spec assigns an entry in the gross: -1 for expenses, +1 for
income. -/
def Entry.signQ : Entry → ℚ
  | .expense _ => -1
  | .income _ => 1

/-- The raw amount of an expense entry, `none` for income (spec section 4.3,
`get_total_monthly_expense`). -/
def expenseAmt : Entry → Option ℚ
  | .expense x => some x.amount
  | .income _ => none

/-- Raw expense amount as a total function (0 for income). -/
def expenseRaw : Entry → ℚ
  | .expense x => x.amount
  | .income _ => 0

/-- Normalized monthly amount of an expense entry (0 for income). -/
def expenseNorm : Entry → ℚ
  | .expense x => specNormalizedMonthly x.amount x.recurrence
  | .income _ => 0

/-- What one entry contributes to the allocation of category `c`. -/
def expenseCatContribution (c : String) : Entry → ℚ
  | .expense e => if e.category = c then specNormalizedMonthly e.amount e.recurrence else 0
  | .income _ => 0

/-- The spec's per-category allocation sum: total normalized monthly amount
of the expense entries of category `c`. -/
def catSum (es : List Entry) (c : String) : ℚ :=
  (es.map (expenseCatContribution c)).sum

/-- First-match lookup in the allocations association list (0 when absent). -/
def allocLookup (alloc : List (String × ℚ)) (c : String) : ℚ :=
  match alloc.find? (fun kv => kv.1 = c) with
  | some kv => kv.2
  | none => 0

/-- Character-wise lowercasing (Python `str.lower` on ASCII suffixes). -/
def strToLower (s : String) : String :=
  String.mk (s.data.map Char.toLower)

/-- The claim's reading of the extension check: the `.csv` suffix compared
case-insensitively. -/
def specCsvCaseInsensitive (path : String) : Bool :=
  pyEndsWith (strToLower path) ".csv"

/-- A recurrence that a validly constructed item can carry: either absent, or
a `CalendarTime` that passed `__post_init__` (`value >= 1`) and whose unit is
one of the two Literal values. -/
def ValidRecurrence : Option CalendarTime → Prop
  | none => True
  | some r => 1 ≤ r.value ∧ r.unit ∈ calendarTimeUnitStrings

instance (r : Option CalendarTime) : Decidable (ValidRecurrence r) :=
  match r with
  | none => inferInstanceAs (Decidable True)
  | some r => inferInstanceAs (Decidable (1 ≤ r.value ∧ r.unit ∈ calendarTimeUnitStrings))

/-- A validly constructed entry: the amount passed `__post_init__`
(non-negative), the recurrence is valid, the Literal-typed fields hold
values of their Literal types, and an income's `post_tax` is a genuine
boolean (the declared dataclass type). -/
def ValidEntry : Entry → Prop
  | .expense e => 0 ≤ e.amount ∧ ValidRecurrence e.recurrence ∧
      e.category ∈ expenseCategoryStrings ∧ e.priority ∈ expensePriorityStrings
  | .income i => 0 ≤ i.amount ∧ ValidRecurrence i.recurrence ∧
      i.category ∈ incomeCategoryStrings ∧ i.post_tax.isLeft = true

instance (e : Entry) : Decidable (ValidEntry e) :=
  match e with
  | .expense e => inferInstanceAs (Decidable (0 ≤ e.amount ∧ ValidRecurrence e.recurrence ∧
      e.category ∈ expenseCategoryStrings ∧ e.priority ∈ expensePriorityStrings))
  | .income i => inferInstanceAs (Decidable (0 ≤ i.amount ∧ ValidRecurrence i.recurrence ∧
      i.category ∈ incomeCategoryStrings ∧ i.post_tax.isLeft = true))

/-- What `Budget.__init__` itself needs of an argument entry.  The loop
skips income entries entirely, so an income may carry anything its fields
can hold at run time (an out-of-set category, even a string where the bool
belongs).  For an expense the loop reads `allocations[category]` (KeyError
off the key set) and normalizes (TypeError off a unit other than
months/years; a constructed CalendarTime always has `value >= 1`). -/
def ConstructibleEntry : Entry → Prop
  | .expense e => e.category ∈ expenseCategoryStrings ∧ ValidRecurrence e.recurrence
  | .income _ => True

instance (e : Entry) : Decidable (ConstructibleEntry e) :=
  match e with
  | .expense e => inferInstanceAs
      (Decidable (e.category ∈ expenseCategoryStrings ∧ ValidRecurrence e.recurrence))
  | .income _ => inferInstanceAs (Decidable True)

instance {ε α : Type} [DecidableEq ε] [DecidableEq α] : DecidableEq (Except ε α) :=
  fun x y =>
    match x, y with
    | .error a, .error b => decidable_of_iff (a = b) (by simp)
    | .error _, .ok _ => isFalse (by simp)
    | .ok _, .error _ => isFalse (by simp)
    | .ok a, .ok b => decidable_of_iff (a = b) (by simp)

/-- Rewriting an entry's recurrence field, leaving everything else alone
(used to state that the raw-amount total ignores recurrence). -/
def Entry.withRecurrence (r : Option CalendarTime) : Entry → Entry
  | .expense e => .expense { e with recurrence := r }
  | .income i => .income { i with recurrence := r }

/-! Concrete example data used by counterexamples and witnesses. -/

/-- A valid expense with `savings_goal = None` (savings counterexample). -/
def exExpenseNoGoal : PlannedExpense :=
  { name := "a", amount := 1, recurrence := none, currency := Currency.ofCode "USD",
    category := "dining", priority := "necessity", savings_goal := none }

/-- A valid expense whose recurrence spans two months: its normalized
monthly amount (50) differs from its raw amount (100). -/
def c4Expense : PlannedExpense :=
  { name := "gym", amount := 100, recurrence := some { value := 2, unit := "months" },
    currency := Currency.ofCode "USD", category := "wellbeing",
    priority := "necessity", savings_goal := none }

/-- The Budget the constructor builds from `[c4Expense]`. -/
def c4Budget : Budget :=
  { balance := 0, entries := [Entry.expense c4Expense],
    allocations := expenseCategoryStrings.map
      (fun c => (c, catSum [Entry.expense c4Expense] c)) }

/-- The fraction dict `get_monthly_expenses_as_fraction` returns on
`c4Budget` (total raw monthly expense is 100). -/
def c4Fractions : List (String × ℚ) :=
  c4Budget.allocations.map (fun kv => (kv.1, kv.2 / 100))

/-- A `PlannedExpense` instance carrying a recurrence whose unit is "days":
constructible in Python (the Literal type is not enforced at run time). -/
def c10DaysExpense : PlannedExpense :=
  { name := "x", amount := 10, recurrence := some { value := 1, unit := "days" },
    currency := Currency.ofCode "USD", category := "dining",
    priority := "necessity", savings_goal := none }

/-- A `PlannedExpense` instance whose category string is outside the
ExpenseCategory set (again constructible at run time). -/
def c10BogusExpense : PlannedExpense :=
  { name := "x", amount := 10, recurrence := none,
    currency := Currency.ofCode "USD", category := "misc",
    priority := "necessity", savings_goal := none }

/-- A class-correct income whose category string is outside the
IncomeCategory set and whose `post_tax` holds a string: the Budget
constructor never reads either field, so construction succeeds. -/
def c10OddIncome : PlannedIncome :=
  { name := "x", amount := 1, recurrence := none,
    currency := Currency.ofCode "USD", category := "zzz",
    post_tax := Sum.inr "yes" }

/-- A class-correct expense whose priority string is outside the
ExpensePriority set: the constructor never reads priority, so construction
succeeds. -/
def c10OddExpense : PlannedExpense :=
  { name := "y", amount := 2, recurrence := none,
    currency := Currency.ofCode "USD", category := "dining",
    priority := "whatever", savings_goal := none }

/-- The income half of the spec's gross example: 3000 per month. -/
def grossIncomeItem : PlannedIncome :=
  { name := "job", amount := 3000, recurrence := some { value := 1, unit := "months" },
    currency := Currency.ofCode "USD", category := "job", post_tax := Sum.inl true }

/-- The expense half of the spec's gross example. -/
def grossExpenseItem : PlannedExpense :=
  { name := "rent", amount := 1200, recurrence := some { value := 1, unit := "months" },
    currency := Currency.ofCode "USD", category := "housing",
    priority := "necessity", savings_goal := none }

/-- The entries of the spec's gross example, income first. -/
def grossEntries : List Entry :=
  [Entry.income grossIncomeItem, Entry.expense grossExpenseItem]

/-- The Budget the constructor builds from `grossEntries`. -/
def grossBudget : Budget :=
  { balance := 0, entries := grossEntries,
    allocations := expenseCategoryStrings.map (fun c => (c, catSum grossEntries c)) }

/-- First example expense: 1200 one-off. -/
def exampleExpenseRent : PlannedExpense :=
  { name := "rent", amount := 1200, recurrence := none,
    currency := Currency.ofCode "USD", category := "housing",
    priority := "necessity", savings_goal := none }

/-- Second example expense: 400 every month. -/
def exampleExpenseFood : PlannedExpense :=
  { name := "food", amount := 400, recurrence := some { value := 1, unit := "months" },
    currency := Currency.ofCode "USD", category := "groceries",
    priority := "necessity", savings_goal := none }

/-- Third example expense: 1800 yearly, toward a savings goal. -/
def exampleExpenseTrip : PlannedExpense :=
  { name := "trip", amount := 1800, recurrence := some { value := 1, unit := "years" },
    currency := Currency.ofCode "USD", category := "travel",
    priority := "luxury", savings_goal := some "vacation" }

/-- Second example income: 600 one-off. -/
def exampleIncomeEtsy : PlannedIncome :=
  { name := "etsy", amount := 600, recurrence := none,
    currency := Currency.ofCode "USD", category := "side_hustle",
    post_tax := Sum.inl false }

/-- The five entries: three expenses then two income entries. -/
def exampleEntries5 : List Entry :=
  [Entry.expense exampleExpenseRent, Entry.expense exampleExpenseFood,
   Entry.expense exampleExpenseTrip, Entry.income grossIncomeItem,
   Entry.income exampleIncomeEtsy]

/-- The Budget the constructor builds from `exampleEntries5`. -/
def exampleBudget5 : Budget :=
  { balance := 0, entries := exampleEntries5,
    allocations := expenseCategoryStrings.map (fun c => (c, catSum exampleEntries5 c)) }

/-- A round-trippable expense: savings goal present, amount an exact
two-decimal value. -/
def wRoundTripExpense : PlannedExpense :=
  { name := "trip", amount := 617 / 50, recurrence := some { value := 2, unit := "months" },
    currency := Currency.ofCode "USD", category := "travel",
    priority := "luxury", savings_goal := some "vacation" }

/-- A valid income entry used for the round-trip witness. -/
def wRoundTripIncome : PlannedIncome :=
  { name := "job", amount := 3000, recurrence := some { value := 1, unit := "months" },
    currency := Currency.ofCode "USD", category := "job", post_tax := Sum.inl true }

/-- A single all-monthly expense (normalized = raw amount). -/
def wMonthlyExpense : PlannedExpense :=
  { name := "food", amount := 100, recurrence := none,
    currency := Currency.ofCode "USD", category := "dining",
    priority := "necessity", savings_goal := none }

/-- The Budget the constructor builds from `[wMonthlyExpense]`. -/
def wBudget4 : Budget :=
  { balance := 0, entries := [Entry.expense wMonthlyExpense],
    allocations := expenseCategoryStrings.map
      (fun c => (c, catSum [Entry.expense wMonthlyExpense] c)) }

/-! Helper lemmas shared by the claim theorems. -/

/-- On a valid recurrence, the source normalization agrees with the spec
formula and raises nothing. -/
lemma norm_ok (a : ℚ) (r : Option CalendarTime) (h : ValidRecurrence r) :
    get_normalized_monthly_amount a r = .ok (specNormalizedMonthly a r) := by
  match r with
  | none => rfl
  | some t =>
    rcases h with ⟨-, hu⟩
    simp only [calendarTimeUnitStrings, List.mem_cons, List.mem_singleton,
      List.not_mem_nil, or_false] at hu
    rcases hu with hu | hu <;>
      simp [get_normalized_monthly_amount, specNormalizedMonthly, hu]

/-- Spec normalization is non-negative for a valid item. -/
lemma specNormalizedMonthly_nonneg (a : ℚ) (r : Option CalendarTime)
    (ha : 0 ≤ a) (h : ValidRecurrence r) : 0 ≤ specNormalizedMonthly a r := by
  match r with
  | none => exact ha
  | some t =>
    rcases h with ⟨hv, -⟩
    have hv0 : (0 : ℚ) ≤ (t.value : ℚ) := by exact_mod_cast le_trans zero_le_one hv
    unfold specNormalizedMonthly
    by_cases hu : t.unit = "years" <;> simp [hu] <;> positivity

/-- Reading a key present in a function-shaped association list. -/
lemma allocGet_map_fun (keys : List String) (f : String → ℚ) (cat : String)
    (h : cat ∈ keys) :
    allocGet (keys.map (fun c => (c, f c))) cat = .ok (f cat) := by
  induction keys with
  | nil => cases h
  | cons k ks ih =>
    by_cases hk : k = cat
    · subst hk
      simp [allocGet, List.find?_cons_of_pos]
    · rcases List.mem_cons.mp h with h1 | h1
      · exact absurd h1.symm hk
      · have := ih h1
        simpa [allocGet, List.find?_cons_of_neg, hk] using this

/-- `allocLookup` on a function-shaped association list. -/
lemma allocLookup_map_fun (keys : List String) (f : String → ℚ) (cat : String)
    (h : cat ∈ keys) :
    allocLookup (keys.map (fun c => (c, f c))) cat = f cat := by
  induction keys with
  | nil => cases h
  | cons k ks ih =>
    by_cases hk : k = cat
    · subst hk
      simp [allocLookup, List.find?_cons_of_pos]
    · rcases List.mem_cons.mp h with h1 | h1
      · exact absurd h1.symm hk
      · have := ih h1
        simpa [allocLookup, List.find?_cons_of_neg, hk] using this

/-- Writing a key of a function-shaped association list keeps the shape. -/
lemma allocSet_map_fun (keys : List String) (f : String → ℚ) (cat : String) (v : ℚ) :
    allocSet (keys.map (fun c => (c, f c))) cat v =
      keys.map (fun c => (c, if c = cat then v else f c)) := by
  unfold allocSet
  rw [List.map_map]
  refine List.map_congr_left (fun c _ => ?_)
  by_cases hc : c = cat <;> simp [hc]

/-- Bind on a success value reduces (definitional; stated for `simp`). -/
lemma bind_ok_eq {ε α β : Type} (a : α) (f : α → Except ε β) :
    (Except.ok a >>= f : Except ε β) = f a := rfl

/-- Unfolding of `catSum` over a cons cell. -/
lemma catSum_cons (e : Entry) (es : List Entry) (c : String) :
    catSum (e :: es) c = expenseCatContribution c e + catSum es c := by
  simp [catSum]

/-- Running the constructor loop over valid entries followed by anything:
the entries fold their normalized amounts into the per-category sums and the
loop continues on the rest. -/
lemma budgetInitLoop_append_fun (es : List Entry) (tail : List BudgetArg)
    (f : String → ℚ) (hval : ∀ e ∈ es, ConstructibleEntry e) :
    budgetInitLoop (expenseCategoryStrings.map (fun c => (c, f c)))
        (es.map BudgetArg.entry ++ tail) =
      budgetInitLoop (expenseCategoryStrings.map (fun c => (c, f c + catSum es c)))
        tail := by
  induction es generalizing f with
  | nil => simp [catSum]
  | cons e es ih =>
    have hvhead := hval e (List.mem_cons_self e es)
    have hvtail : ∀ x ∈ es, ConstructibleEntry x :=
      fun x hx => hval x (List.mem_cons_of_mem e hx)
    match e with
    | .income i =>
      have step : budgetInitLoop (expenseCategoryStrings.map (fun c => (c, f c)))
          ((Entry.income i :: es).map BudgetArg.entry ++ tail) =
          budgetInitLoop (expenseCategoryStrings.map (fun c => (c, f c)))
          (es.map BudgetArg.entry ++ tail) := rfl
      rw [step, ih f hvtail]
      have : (fun c => (c, f c + catSum es c)) =
          (fun c => (c, f c + catSum (Entry.income i :: es) c)) := by
        funext c
        simp [catSum_cons, expenseCatContribution]
      rw [this]
    | .expense x =>
      rcases hvhead with ⟨hcat, hrec⟩
      have hget := allocGet_map_fun expenseCategoryStrings f x.category hcat
      have hnorm := norm_ok x.amount x.recurrence hrec
      have step : budgetInitLoop (expenseCategoryStrings.map (fun c => (c, f c)))
          ((Entry.expense x :: es).map BudgetArg.entry ++ tail) =
          budgetInitLoop
            (allocSet (expenseCategoryStrings.map (fun c => (c, f c))) x.category
              (f x.category + specNormalizedMonthly x.amount x.recurrence))
            (es.map BudgetArg.entry ++ tail) := by
        simp only [List.map_cons, List.cons_append, budgetInitLoop, hget, hnorm,
          bind_ok_eq, List.append_eq]
      rw [step, allocSet_map_fun]
      rw [ih _ hvtail]
      have : (fun c => (c,
          (if c = x.category then f x.category + specNormalizedMonthly x.amount x.recurrence
           else f c) + catSum es c)) =
          (fun c => (c, f c + catSum (Entry.expense x :: es) c)) := by
        funext c
        by_cases hc : c = x.category
        · subst hc
          simp [catSum_cons, expenseCatContribution, add_assoc]
        · have hc2 : ¬ x.category = c := fun h2 => hc h2.symm
          simp [catSum_cons, expenseCatContribution, hc, hc2]
      rw [this]

/-- A validly constructed entry is in particular one the constructor can
process. -/
lemma validEntry_constructible (e : Entry) (h : ValidEntry e) :
    ConstructibleEntry e := by
  match e with
  | .expense x =>
    obtain ⟨-, hrec, hcat, -⟩ := h
    exact ⟨hcat, hrec⟩
  | .income i => trivial

/-- The constructor loop on processable entries alone: success, with every
category's accumulated value equal to its `catSum`. -/
lemma budgetInitLoop_ok (es : List Entry) (hval : ∀ e ∈ es, ConstructibleEntry e) :
    budgetInitLoop allocationsInit (es.map BudgetArg.entry) =
      .ok (expenseCategoryStrings.map (fun c => (c, catSum es c))) := by
  have h0 := budgetInitLoop_append_fun es [] (fun _ => 0) hval
  simp only [List.append_nil] at h0
  rw [show allocationsInit =
      expenseCategoryStrings.map (fun c => (c, (fun _ => (0 : ℚ)) c)) from rfl, h0]
  simp [budgetInitLoop]

/-- Extracting the entries back out of the argument list. -/
lemma filterMap_entry (es : List Entry) :
    (es.map BudgetArg.entry).filterMap (fun a => match a with
      | .entry e => some e
      | .other => none) = es := by
  induction es with
  | nil => rfl
  | cons e es ih => simp [ih]

/-- `Budget(*entries)` on processable entries: the object it produces,
explicitly. -/
lemma ofEntries_eq_weak (es : List Entry) (hval : ∀ e ∈ es, ConstructibleEntry e) :
    Budget.ofEntries es =
      .ok { balance := 0, entries := es,
            allocations := expenseCategoryStrings.map (fun c => (c, catSum es c)) } := by
  unfold Budget.ofEntries Budget.ofArgs
  rw [budgetInitLoop_ok es hval, bind_ok_eq, filterMap_entry]

/-- `Budget(*entries)` on valid entries: the object it produces, explicitly. -/
lemma ofEntries_eq (es : List Entry) (hval : ∀ e ∈ es, ValidEntry e) :
    Budget.ofEntries es =
      .ok { balance := 0, entries := es,
            allocations := expenseCategoryStrings.map (fun c => (c, catSum es c)) } :=
  ofEntries_eq_weak es (fun e he => validEntry_constructible e (hval e he))

/-- The gross loop on valid entries: signed normalized amounts accumulate. -/
lemma grossLoop_ok (es : List Entry) (g : ℚ) (hval : ∀ e ∈ es, ValidEntry e) :
    grossLoop g es = .ok (g + (es.map (fun e => e.signQ * e.normSpec)).sum) := by
  induction es generalizing g with
  | nil => simp [grossLoop]
  | cons e es ih =>
    have hvhead := hval e (List.mem_cons_self e es)
    have hvtail : ∀ x ∈ es, ValidEntry x := fun x hx => hval x (List.mem_cons_of_mem e hx)
    have hrec : ValidRecurrence (match e with
        | .expense x => x.recurrence
        | .income i => i.recurrence) := by
      match e with
      | .expense x => exact hvhead.2.1
      | .income i => exact hvhead.2.1
    have hn : e.get_norm = .ok e.normSpec := by
      match e with
      | .expense x => exact norm_ok x.amount x.recurrence hvhead.2.1
      | .income i => exact norm_ok i.amount i.recurrence hvhead.2.1
    match e with
    | .expense x =>
      simp only [grossLoop, hn, bind_ok_eq, ih _ hvtail, List.map_cons, List.sum_cons]
      rw [show (Entry.expense x).signQ = -1 from rfl]
      ring_nf
    | .income i =>
      simp only [grossLoop, hn, bind_ok_eq, ih _ hvtail, List.map_cons, List.sum_cons]
      rw [show (Entry.income i).signQ = 1 from rfl]
      ring_nf

/-- The raw-amount fold of `get_total_monthly_expense`, characterized. -/
lemma expenseFoldl (es : List Entry) (a : ℚ) :
    es.foldl (fun acc e => match e with
      | .expense x => acc + x.amount
      | .income _ => acc) a = a + (es.map expenseRaw).sum := by
  induction es generalizing a with
  | nil => simp
  | cons e es ih =>
    match e with
    | .expense x => simp [List.foldl_cons, ih, expenseRaw, add_assoc]
    | .income i => simp [List.foldl_cons, ih, expenseRaw]

/-- `get_total_monthly_expense` equals the sum of raw expense amounts. -/
lemma total_eq (b : Budget) :
    b.get_total_monthly_expense = (b.entries.map expenseRaw).sum := by
  unfold Budget.get_total_monthly_expense
  rw [expenseFoldl, zero_add]

/-- The optional and the total raw-amount projections sum alike. -/
lemma filterMap_expenseAmt_sum (es : List Entry) :
    (es.filterMap expenseAmt).sum = (es.map expenseRaw).sum := by
  induction es with
  | nil => rfl
  | cons e es ih =>
    match e with
    | .expense x => simp [expenseAmt, expenseRaw, ih]
    | .income i => simp [expenseAmt, expenseRaw, ih]

/-- `math.isclose(a, 0.0)` with the default tolerances holds exactly when
`a` is zero: the absolute tolerance defaults to 0 and the relative tolerance
is scaled by `|a|` itself. -/
lemma mathIsClose_zero_iff (a : ℚ) : mathIsClose a 0 = true ↔ a = 0 := by
  unfold mathIsClose
  rw [decide_eq_true_eq]
  constructor
  · intro h
    by_contra ha
    have hpos : 0 < |a| := abs_pos.mpr ha
    rw [sub_zero, abs_zero, max_eq_left (abs_nonneg a)] at h
    have hmax : max ((1 / 1000000000) * |a|) 0 = (1 / 1000000000) * |a| :=
      max_eq_left (by positivity)
    rw [hmax] at h
    nlinarith
  · intro h
    subst h
    simp

/-- A list sum of an if-single-hit function over a duplicate-free list. -/
lemma sum_map_ite_single (l : List String) (hnd : l.Nodup) (a : String)
    (ha : a ∈ l) (x : ℚ) :
    (l.map (fun c => if a = c then x else 0)).sum = x := by
  induction l with
  | nil => cases ha
  | cons k ks ih =>
    rcases List.nodup_cons.mp hnd with ⟨hk, hks⟩
    rcases List.mem_cons.mp ha with h1 | h1
    · subst h1
      have hz : (ks.map (fun c => if a = c then x else 0)).sum = 0 := by
        apply List.sum_eq_zero
        intro y hy
        rcases List.mem_map.mp hy with ⟨c, hc, rfl⟩
        have : a ≠ c := fun hac => hk (hac ▸ hc)
        simp [this]
      simp [hz]
    · have hak : a ≠ k := fun hak => hk (hak ▸ h1)
      rw [List.map_cons, List.sum_cons, if_neg hak, zero_add, ih hks h1]

/-- Summing the per-category allocation sums over all categories gives the
total normalized monthly amount of all expense entries. -/
lemma sum_catSum (es : List Entry)
    (hcat : ∀ x : PlannedExpense, Entry.expense x ∈ es → x.category ∈ expenseCategoryStrings) :
    (expenseCategoryStrings.map (fun c => catSum es c)).sum =
      (es.map expenseNorm).sum := by
  induction es with
  | nil => simp [catSum]
  | cons e es ih =>
    have hcat2 : ∀ x : PlannedExpense, Entry.expense x ∈ es →
        x.category ∈ expenseCategoryStrings :=
      fun x hx => hcat x (List.mem_cons_of_mem e hx)
    have hsplit : (expenseCategoryStrings.map (fun c => catSum (e :: es) c)).sum =
        (expenseCategoryStrings.map (fun c => expenseCatContribution c e)).sum +
        (expenseCategoryStrings.map (fun c => catSum es c)).sum := by
      rw [← List.sum_map_add]
      simp [catSum_cons]
    rw [hsplit, ih hcat2]
    have hnd : expenseCategoryStrings.Nodup := by decide
    have hhead : (expenseCategoryStrings.map (fun c => expenseCatContribution c e)).sum =
        expenseNorm e := by
      match e with
      | .income i =>
        simp [expenseCatContribution, expenseNorm]
      | .expense x =>
        have hx := hcat x (List.mem_cons_self _ _)
        have := sum_map_ite_single expenseCategoryStrings hnd x.category hx
          (specNormalizedMonthly x.amount x.recurrence)
        simpa [expenseCatContribution, expenseNorm] using this
    rw [hhead]
    simp

/-- Dividing each list element by a constant divides the sum. -/
lemma sum_map_div (l : List ℚ) (t : ℚ) :
    (l.map (fun q => q / t)).sum = l.sum / t := by
  induction l with
  | nil => simp
  | cons q l ih => simp [ih, add_div]

/-- Quantization preserves non-negativity. -/
lemma quantize2_nonneg (q : ℚ) (h : 0 ≤ q) : 0 ≤ quantize2 q := by
  unfold quantize2
  have h2 : (0:ℤ) ≤ round (100 * q) := by
    rw [round_eq]
    exact Int.floor_nonneg.mpr (by linarith)
  have h3 : (0:ℚ) ≤ ((round (100 * q) : ℤ) : ℚ) := by exact_mod_cast h2
  positivity

/-- A valid expense entry always passes row validation after encoding. -/
lemma validate_expense_row_ok (e : PlannedExpense) (hrec : ValidRecurrence e.recurrence)
    (hcat : e.category ∈ expenseCategoryStrings) (hpri : e.priority ∈ expensePriorityStrings) :
    validate_budget_row e.to_budget_row = .ok () := by
  obtain ⟨nm, amt, rec, cur, cat, pri, sg⟩ := e
  simp only at hcat hpri
  cases rec with
  | none =>
    unfold validate_budget_row PlannedExpense.to_budget_row
    simp [hcat, hpri]
  | some r =>
    obtain ⟨rv, ru⟩ := r
    obtain ⟨hv, hu⟩ := hrec
    simp only [calendarTimeUnitStrings, List.mem_cons, List.not_mem_nil, or_false,
      List.mem_singleton] at hu
    rcases hu with hu | hu <;> subst hu <;>
      (unfold validate_budget_row PlannedExpense.to_budget_row
       simp [hcat, hpri, calendarTimeUnitStrings])

/-- Decoding an encoded valid expense succeeds; the result differs from the
original only where the codec loses information (amount quantization, the
currency rebuilt from its code, and a blank savings_goal decoded as the
empty string rather than None). -/
lemma expense_fromRow_ok (e : PlannedExpense) (hval : ValidEntry (Entry.expense e)) :
    PlannedExpense.from_budget_row e.to_budget_row =
      .ok { name := e.name, amount := quantize2 e.amount, recurrence := e.recurrence,
            currency := Currency.ofCode (match e.currency.money_currency with
              | none => "" | some c => c),
            category := e.category, priority := e.priority,
            savings_goal := some (match e.savings_goal with | none => "" | some s => s) } := by
  obtain ⟨hamt, hrec, hcat, hpri⟩ := hval
  have hv := validate_expense_row_ok e hrec hcat hpri
  have hq : ¬ (quantize2 e.amount < 0) := not_lt.mpr (quantize2_nonneg e.amount hamt)
  obtain ⟨nm, amt, rec, cur, cat, pri, sg⟩ := e
  simp only at hv hq ⊢
  cases rec with
  | none =>
    unfold PlannedExpense.from_budget_row
    simp only [PlannedExpense.to_budget_row] at hv ⊢
    rw [hv]
    simp [hq, bind_ok_eq]
  | some r =>
    obtain ⟨rv, ru⟩ := r
    obtain ⟨hv1, hu⟩ := hrec
    have hv2 : 1 ≤ rv := hv1
    have hrv : ¬ (rv ≤ 0) := by omega
    have hru : ru ≠ "" := by
      simp only [calendarTimeUnitStrings, List.mem_cons, List.not_mem_nil, or_false,
        List.mem_singleton] at hu
      rcases hu with hu | hu <;> subst hu <;> decide
    unfold PlannedExpense.from_budget_row
    simp only [PlannedExpense.to_budget_row] at hv ⊢
    rw [hv]
    simp [hru, CalendarTime.mkChecked, hrv, hq, bind_ok_eq, Except.map_ok]
    all_goals rfl

/-- A valid income entry always passes row validation after encoding. -/
lemma validate_income_row_ok (i : PlannedIncome) (hrec : ValidRecurrence i.recurrence)
    (hcat : i.category ∈ incomeCategoryStrings) :
    validate_budget_row i.to_budget_row = .ok () := by
  obtain ⟨nm, amt, rec, cur, cat, pt⟩ := i
  simp only at hcat
  cases rec with
  | none =>
    unfold validate_budget_row PlannedIncome.to_budget_row
    cases hb : pyTruthy pt <;> simp [hb, hcat]
  | some r =>
    obtain ⟨rv, ru⟩ := r
    obtain ⟨hv, hu⟩ := hrec
    simp only [calendarTimeUnitStrings, List.mem_cons, List.not_mem_nil, or_false,
      List.mem_singleton] at hu
    rcases hu with hu | hu <;> subst hu <;>
      (unfold validate_budget_row PlannedIncome.to_budget_row
       cases hb : pyTruthy pt <;> simp [hb, hcat, calendarTimeUnitStrings])

/-- Decoding an encoded valid income succeeds; `post_tax` comes back as the
raw row string. -/
lemma income_fromRow_ok (i : PlannedIncome) (hval : ValidEntry (Entry.income i)) :
    PlannedIncome.from_budget_row i.to_budget_row =
      .ok { name := i.name, amount := quantize2 i.amount, recurrence := i.recurrence,
            currency := Currency.ofCode (match i.currency.money_currency with
              | none => "" | some c => c),
            category := i.category,
            post_tax := Sum.inr (if pyTruthy i.post_tax then "true" else "false") } := by
  obtain ⟨hamt, hrec, hcat, -⟩ := hval
  have hv := validate_income_row_ok i hrec hcat
  have hq : ¬ (quantize2 i.amount < 0) := not_lt.mpr (quantize2_nonneg i.amount hamt)
  obtain ⟨nm, amt, rec, cur, cat, pt⟩ := i
  simp only at hv hq ⊢
  cases rec with
  | none =>
    unfold PlannedIncome.from_budget_row
    simp only [PlannedIncome.to_budget_row] at hv ⊢
    rw [hv]
    simp [hq, bind_ok_eq]
  | some r =>
    obtain ⟨rv, ru⟩ := r
    obtain ⟨hv1, hu⟩ := hrec
    have hv2 : 1 ≤ rv := hv1
    have hrv : ¬ (rv ≤ 0) := by omega
    have hru : ru ≠ "" := by
      simp only [calendarTimeUnitStrings, List.mem_cons, List.not_mem_nil, or_false,
        List.mem_singleton] at hu
      rcases hu with hu | hu <;> subst hu <;> decide
    unfold PlannedIncome.from_budget_row
    simp only [PlannedIncome.to_budget_row] at hv ⊢
    rw [hv]
    simp [hru, CalendarTime.mkChecked, hrv, hq, bind_ok_eq, Except.map_ok]
    all_goals rfl

/-- The `from_file` row loop succeeds on the encoding of valid entries. -/
lemma fromFileLoop_isOk (es : List Entry) (acc : List Entry)
    (hval : ∀ e ∈ es, ValidEntry e) :
    (fromFileLoop acc (es.map Entry.to_budget_row)).isOk = true := by
  induction es generalizing acc with
  | nil => rfl
  | cons e es ih =>
    have hvhead := hval e (List.mem_cons_self e es)
    have hvtail : ∀ x ∈ es, ValidEntry x := fun x hx => hval x (List.mem_cons_of_mem e hx)
    match e with
    | .expense x =>
      have hdec := expense_fromRow_ok x hvhead
      simp only [List.map_cons, fromFileLoop, Entry.to_budget_row]
      rw [if_pos (show x.to_budget_row.income_or_expense = "expense" from rfl),
        hdec, bind_ok_eq]
      exact ih _ hvtail
    | .income i =>
      have hdec := income_fromRow_ok i hvhead
      simp only [List.map_cons, fromFileLoop, Entry.to_budget_row]
      rw [if_pos (show i.to_budget_row.income_or_expense = "income" from rfl),
        hdec, bind_ok_eq]
      exact ih _ hvtail

/-! The claim theorems. -/

/-- C3: `get_normalized_monthly_amount` returns the amount unchanged for a
null recurrence, divides by `v` for `(v, months)` with `v >= 1`, divides by
`12*v` for `(v, years)`, and fails with the TypeError for any other unit. -/
theorem c3_normalized_monthly_amount :
    (∀ A : ℚ, get_normalized_monthly_amount A none = .ok A) ∧
    (∀ (A : ℚ) (v : ℤ), 1 ≤ v →
      get_normalized_monthly_amount A (some { value := v, unit := "months" }) =
        .ok (A / (v : ℚ))) ∧
    (∀ (A : ℚ) (v : ℤ), 1 ≤ v →
      get_normalized_monthly_amount A (some { value := v, unit := "years" }) =
        .ok (A / (12 * (v : ℚ)))) ∧
    (∀ (A : ℚ) (v : ℤ) (u : String), u ∉ calendarTimeUnitStrings →
      get_normalized_monthly_amount A (some { value := v, unit := u }) =
        .error calendarUnitErrorMsg) := by
  refine ⟨fun A => rfl,
    fun A v _ => by simp [get_normalized_monthly_amount],
    fun A v _ => by simp [get_normalized_monthly_amount],
    fun A v u hu => ?_⟩
  simp only [calendarTimeUnitStrings, List.mem_cons, List.not_mem_nil, or_false,
    List.mem_singleton, not_or] at hu
  simp [get_normalized_monthly_amount, hu.1, hu.2]

/-- C3 witness: the four branches at concrete inputs. -/
theorem c3_normalized_monthly_amount_witness :
    get_normalized_monthly_amount 6 none = .ok 6 ∧
    get_normalized_monthly_amount 6 (some { value := 2, unit := "months" }) =
      .ok (6 / ((2 : ℤ) : ℚ)) ∧
    get_normalized_monthly_amount 6 (some { value := 2, unit := "years" }) =
      .ok (6 / (12 * ((2 : ℤ) : ℚ))) ∧
    get_normalized_monthly_amount 6 (some { value := 2, unit := "days" }) =
      .error calendarUnitErrorMsg :=
  ⟨c3_normalized_monthly_amount.1 6,
   c3_normalized_monthly_amount.2.1 6 2 (by decide),
   c3_normalized_monthly_amount.2.2.1 6 2 (by decide),
   c3_normalized_monthly_amount.2.2.2 6 2 "days" (by decide)⟩

/-- C5: the fraction method raises exactly when `math.isclose(total, 0.0)`
holds, which over the exact rationals happens exactly at zero (the default
`abs_tol` is 0, so the relative bound is scaled by `|total|` itself); in the
non-error case every category's value is `allocations[c] / total`, an exact
division by a non-zero total (no NaN or infinity exists in this model). -/
theorem c5_fraction_precondition (b : Budget) :
    (∀ a : ℚ, mathIsClose a 0 = true ↔ a = 0) ∧
    (b.get_monthly_expenses_as_fraction = .error fractionsErrorMsg ↔
      mathIsClose b.get_total_monthly_expense 0 = true) ∧
    (mathIsClose b.get_total_monthly_expense 0 = false →
      b.get_monthly_expenses_as_fraction =
        .ok (b.allocations.map (fun kv =>
          (kv.1, kv.2 / b.get_total_monthly_expense)))) := by
  refine ⟨mathIsClose_zero_iff, ?_, ?_⟩
  · unfold Budget.get_monthly_expenses_as_fraction
    by_cases h : mathIsClose b.get_total_monthly_expense 0 = true
    · simp [h]
    · simp [h]
  · intro h
    unfold Budget.get_monthly_expenses_as_fraction
    simp [h]

/-- C5 witness: on a budget with a single 100-per-month expense the method
returns the exact division by the total. -/
theorem c5_fraction_precondition_witness :
    wBudget4.get_monthly_expenses_as_fraction =
      .ok (wBudget4.allocations.map (fun kv =>
        (kv.1, kv.2 / wBudget4.get_total_monthly_expense))) := by
  have htot : wBudget4.get_total_monthly_expense = 100 := by
    simp [wBudget4, Budget.get_total_monthly_expense, wMonthlyExpense]
  have hfalse : mathIsClose wBudget4.get_total_monthly_expense 0 = false := by
    rw [htot]
    cases hb : mathIsClose (100 : ℚ) 0 with
    | false => rfl
    | true => exact absurd ((mathIsClose_zero_iff 100).mp hb) (by norm_num)
  exact (c5_fraction_precondition wBudget4).2.2 hfalse

/-- C9: `get_total_monthly_expense` is the sum of the raw `amount` field
over the PlannedExpense entries — income entries are skipped and the result
is invariant under any rewrite of every entry's recurrence field. -/
theorem c9_total_monthly_expense (b : Budget) :
    b.get_total_monthly_expense = (b.entries.filterMap expenseAmt).sum ∧
    (∀ r : Option CalendarTime,
      Budget.get_total_monthly_expense
        { b with entries := b.entries.map (Entry.withRecurrence r) } =
        b.get_total_monthly_expense) := by
  constructor
  · rw [total_eq, filterMap_expenseAmt_sum]
  · intro r
    rw [total_eq, total_eq]
    show ((b.entries.map (Entry.withRecurrence r)).map expenseRaw).sum =
      (b.entries.map expenseRaw).sum
    rw [List.map_map]
    congr 1
    refine List.map_congr_left (fun e _ => ?_)
    match e with
    | .expense x => rfl
    | .income i => rfl

/-- C2 counterexample: a valid expense with `savings_goal = None` does not
round-trip — decoding the encoded row yields `savings_goal = ""` (the raw
row string), an entry unequal to the original. -/
theorem c2_roundtrip_counterexample :
    PlannedExpense.from_budget_row exExpenseNoGoal.to_budget_row =
      .ok { exExpenseNoGoal with savings_goal := some "" } ∧
    ({ exExpenseNoGoal with savings_goal := some "" } : PlannedExpense) ≠
      exExpenseNoGoal := by
  constructor
  · rw [expense_fromRow_ok exExpenseNoGoal (by decide)]
    simp only [exExpenseNoGoal, Currency.ofCode]
    norm_num [quantize2, round_eq]
  · intro h
    have h2 := congrArg PlannedExpense.savings_goal h
    simp [exExpenseNoGoal] at h2

/-- C2 amended: the round-trip law holds for a PlannedExpense exactly when
nothing passes through a lossy column: `savings_goal` set (a null one comes
back as the empty string), the currency code present, and the amount an
exact two-decimal value.  For a PlannedIncome all fields round-trip except
`post_tax`, which comes back as the string "true"/"false" assigned to a
bool-typed field rather than the original boolean. -/
theorem c2_roundtrip_amended :
    (∀ (e : PlannedExpense) (g c : String),
      ValidEntry (Entry.expense e) → e.savings_goal = some g →
      e.currency.money_currency = some c → quantize2 e.amount = e.amount →
      PlannedExpense.from_budget_row e.to_budget_row = .ok e) ∧
    (∀ (i : PlannedIncome) (bb : Bool) (c : String),
      ValidEntry (Entry.income i) → i.post_tax = Sum.inl bb →
      i.currency.money_currency = some c → quantize2 i.amount = i.amount →
      PlannedIncome.from_budget_row i.to_budget_row =
        .ok { i with post_tax := Sum.inr (if bb then "true" else "false") }) := by
  constructor
  · intro e g c hval hgoal hcur hq
    rw [expense_fromRow_ok e hval]
    obtain ⟨nm, amt, rec, ⟨mc⟩, cat, pri, sg⟩ := e
    simp only at hgoal hcur hq
    subst hgoal
    subst hcur
    simp only at hq ⊢
    rw [hq]
    rfl
  · intro i bb c hval hpt hcur hq
    rw [income_fromRow_ok i hval]
    obtain ⟨nm, amt, rec, ⟨mc⟩, cat, pt⟩ := i
    simp only at hpt hcur hq
    subst hpt
    subst hcur
    simp only at hq ⊢
    rw [hq]
    rfl

/-- C2 witness: a concrete expense (savings goal set, amount 12.34) and a
concrete income round-trip as the amended claim states. -/
theorem c2_roundtrip_witness :
    PlannedExpense.from_budget_row wRoundTripExpense.to_budget_row =
      .ok wRoundTripExpense ∧
    PlannedIncome.from_budget_row wRoundTripIncome.to_budget_row =
      .ok { wRoundTripIncome with post_tax := Sum.inr "true" } :=
  ⟨c2_roundtrip_amended.1 wRoundTripExpense "vacation" "USD"
     ⟨by norm_num [wRoundTripExpense], ⟨by decide, by decide⟩, by decide, by decide⟩
     rfl rfl (by norm_num [quantize2, round_eq, wRoundTripExpense]),
   c2_roundtrip_amended.2 wRoundTripIncome true "USD"
     ⟨by norm_num [wRoundTripIncome], ⟨by decide, by decide⟩, by decide, by decide⟩
     rfl rfl (by norm_num [quantize2, round_eq, wRoundTripIncome])⟩

/-- C7: `get_monthly_gross` is the sum over all entries of the signed
normalized monthly amount, sign -1 for expenses and +1 for income. -/
theorem c7_monthly_gross (es : List Entry) (b : Budget)
    (hval : ∀ e ∈ es, ValidEntry e)
    (hmk : Budget.ofEntries es = .ok b) :
    b.get_monthly_gross = .ok ((es.map (fun e => e.signQ * e.normSpec)).sum) := by
  have hbent : b.entries = es := by
    rw [ofEntries_eq es hval] at hmk
    injection hmk with h
    subst h
    rfl
  unfold Budget.get_monthly_gross
  rw [hbent, grossLoop_ok es 0 hval, zero_add]

/-- C7 witness: one 3000-per-month income and one 1200-per-month expense
give a gross of 1800. -/
theorem c7_monthly_gross_witness :
    grossBudget.get_monthly_gross =
      .ok ((grossEntries.map (fun e => e.signQ * e.normSpec)).sum) ∧
    (grossEntries.map (fun e => e.signQ * e.normSpec)).sum = 1800 := by
  constructor
  · exact c7_monthly_gross grossEntries grossBudget (by decide)
      (ofEntries_eq grossEntries (by decide))
  · simp [grossEntries, grossIncomeItem, grossExpenseItem, Entry.signQ,
      Entry.normSpec, specNormalizedMonthly]
    norm_num

/-- C6: constructing a Budget from any list of valid entries succeeds; the
allocations dict then has exactly the ExpenseCategory values as keys (once
each — the key list is duplicate-free), and each category's value is the
sum of the normalized monthly amounts of that category's expense entries,
hence non-negative. -/
theorem c6_allocations_invariant (es : List Entry) (hval : ∀ e ∈ es, ValidEntry e) :
    (Budget.ofEntries es).isOk = true ∧
    ∀ b : Budget, Budget.ofEntries es = .ok b →
      b.allocations.map Prod.fst = expenseCategoryStrings ∧
      expenseCategoryStrings.Nodup ∧
      ∀ c ∈ expenseCategoryStrings,
        allocLookup b.allocations c = catSum es c ∧
        0 ≤ allocLookup b.allocations c := by
  have heq := ofEntries_eq es hval
  refine ⟨by rw [heq]; rfl, ?_⟩
  intro b hb
  have hballoc : b.allocations =
      expenseCategoryStrings.map (fun c => (c, catSum es c)) := by
    rw [heq] at hb
    injection hb with h
    subst h
    rfl
  rw [hballoc]
  refine ⟨?_, by decide, ?_⟩
  · rw [List.map_map,
      show (Prod.fst ∘ fun c : String => (c, catSum es c)) = id from rfl,
      List.map_id]
  · intro c hc
    rw [allocLookup_map_fun expenseCategoryStrings (fun c => catSum es c) c hc]
    refine ⟨rfl, ?_⟩
    apply List.sum_nonneg
    intro q hq
    rcases List.mem_map.mp hq with ⟨e, he, rfl⟩
    match e with
    | .income i => exact le_refl 0
    | .expense x =>
      obtain ⟨hamt, hrec, -, -⟩ := hval (Entry.expense x) he
      show (0 : ℚ) ≤
        if x.category = c then specNormalizedMonthly x.amount x.recurrence else 0
      by_cases hcx : x.category = c
      · rw [if_pos hcx]
        exact specNormalizedMonthly_nonneg x.amount x.recurrence hamt hrec
      · rw [if_neg hcx]

/-- C6 witness: the five-entry example constructs successfully and its
allocations carry exactly the category keys. -/
theorem c6_allocations_invariant_witness :
    (Budget.ofEntries exampleEntries5).isOk = true ∧
    exampleBudget5.allocations.map Prod.fst = expenseCategoryStrings := by
  have h := c6_allocations_invariant exampleEntries5 (by decide)
  exact ⟨h.1, (h.2 exampleBudget5 (ofEntries_eq exampleEntries5 (by decide))).1⟩

/-- C10 counterexample: two arguments that ARE `PlannedExpense` instances on
which construction still fails — one whose recurrence unit string is "days"
(TypeError from normalization), one whose category string lies outside the
ExpenseCategory set (KeyError from the allocations dict). -/
theorem c10_constructor_counterexample :
    Budget.ofArgs [BudgetArg.entry (Entry.expense c10DaysExpense)] =
      .error calendarUnitErrorMsg ∧
    Budget.ofArgs [BudgetArg.entry (Entry.expense c10BogusExpense)] =
      .error "KeyError" :=
  ⟨rfl, rfl⟩

/-- C10 amended: the constructor raises the TypeError when an argument that
is not a PlannedExpense/PlannedIncome follows processable entries, and
succeeds — storing the entries in argument order — exactly under what the
loop itself touches: nothing for income entries (they are skipped whatever
their fields hold), and for each expense a category in the ExpenseCategory
key set and a recurrence the normalization accepts.  Class membership alone
is not sufficient (see the counterexample), and no other field matters. -/
theorem c10_constructor_type_check :
    (∀ (es : List Entry) (rest : List BudgetArg), (∀ e ∈ es, ConstructibleEntry e) →
      Budget.ofArgs (es.map BudgetArg.entry ++ BudgetArg.other :: rest) =
        .error budgetTypeErrorMsg) ∧
    (∀ es : List Entry, (∀ e ∈ es, ConstructibleEntry e) →
      Budget.ofArgs (es.map BudgetArg.entry) =
        .ok { balance := 0, entries := es,
              allocations := expenseCategoryStrings.map
                (fun c => (c, catSum es c)) }) := by
  constructor
  · intro es rest hval
    unfold Budget.ofArgs
    rw [show allocationsInit =
        expenseCategoryStrings.map (fun c => (c, (fun _ => (0 : ℚ)) c)) from rfl]
    rw [budgetInitLoop_append_fun es (BudgetArg.other :: rest) (fun _ => 0) hval]
    rfl
  · intro es hval
    exact ofEntries_eq_weak es hval

/-- C10 witness: a lone non-entry argument raises the TypeError; and a list
made of an income with an out-of-set category and a string `post_tax`
together with an expense whose priority string is out of set — class-correct
entries no stronger validity holds for — constructs successfully with the
entries in argument order. -/
theorem c10_constructor_type_check_witness :
    Budget.ofArgs [BudgetArg.other] = .error budgetTypeErrorMsg ∧
    Budget.ofArgs ([Entry.income c10OddIncome,
        Entry.expense c10OddExpense].map BudgetArg.entry) =
      .ok { balance := 0,
            entries := [Entry.income c10OddIncome, Entry.expense c10OddExpense],
            allocations := expenseCategoryStrings.map
              (fun c => (c, catSum [Entry.income c10OddIncome,
                Entry.expense c10OddExpense] c)) } :=
  ⟨c10_constructor_type_check.1 [] [] (by decide),
   c10_constructor_type_check.2 [Entry.income c10OddIncome, Entry.expense c10OddExpense]
     (by decide)⟩

/-- C4 counterexample: one expense of 100 spanning two months.  Its raw
total is 100 but its normalized allocation is 50, so the returned fractions
sum to 1/2, not 1 — the claim fails although the total is positive. -/
theorem c4_fractions_counterexample :
    Budget.ofEntries [Entry.expense c4Expense] = .ok c4Budget ∧
    c4Budget.get_total_monthly_expense = 100 ∧
    c4Budget.get_monthly_expenses_as_fraction = .ok c4Fractions ∧
    (c4Fractions.map Prod.snd).sum = 1 / 2 ∧ (1 / 2 : ℚ) ≠ 1 := by
  have htot : c4Budget.get_total_monthly_expense = 100 := by
    simp [c4Budget, Budget.get_total_monthly_expense, c4Expense]
  have hfalse : mathIsClose (100 : ℚ) 0 = false := by
    cases hb : mathIsClose (100 : ℚ) 0 with
    | false => rfl
    | true => exact absurd ((mathIsClose_zero_iff 100).mp hb) (by norm_num)
  refine ⟨?_, htot, ?_, ?_, by norm_num⟩
  · exact ofEntries_eq [Entry.expense c4Expense] (by decide)
  · unfold Budget.get_monthly_expenses_as_fraction
    simp only [htot, hfalse, Bool.false_eq_true, if_false]
    rfl
  · simp [c4Fractions, c4Budget, catSum, expenseCatContribution, c4Expense,
      specNormalizedMonthly, expenseCategoryStrings]
    norm_num

/-- C4 amended: the fractions sum to 1 over a positive total exactly under
the proviso the code's asymmetry demands — every expense entry's normalized
monthly amount must equal its raw amount (as with null or one-month
recurrences); then the allocation values sum to the raw total and the
division telescopes to 1. -/
theorem c4_fractions_sum_amended (es : List Entry) (b : Budget)
    (hval : ∀ e ∈ es, ValidEntry e)
    (hmk : Budget.ofEntries es = .ok b)
    (hnorm : ∀ x : PlannedExpense, Entry.expense x ∈ es →
      specNormalizedMonthly x.amount x.recurrence = x.amount)
    (htot : b.get_total_monthly_expense ≠ 0) :
    b.get_monthly_expenses_as_fraction =
      .ok (b.allocations.map (fun kv =>
        (kv.1, kv.2 / b.get_total_monthly_expense))) ∧
    (b.allocations.map (fun kv =>
        kv.2 / b.get_total_monthly_expense)).sum = 1 := by
  have heq := ofEntries_eq es hval
  have hballoc : b.allocations =
      expenseCategoryStrings.map (fun c => (c, catSum es c)) := by
    rw [heq] at hmk
    injection hmk with h
    subst h
    rfl
  have hbent : b.entries = es := by
    rw [heq] at hmk
    injection hmk with h
    subst h
    rfl
  have hfalse : mathIsClose b.get_total_monthly_expense 0 = false := by
    cases hb : mathIsClose b.get_total_monthly_expense 0 with
    | false => rfl
    | true => exact absurd ((mathIsClose_zero_iff _).mp hb) htot
  constructor
  · unfold Budget.get_monthly_expenses_as_fraction
    simp only [hfalse, Bool.false_eq_true, if_false]
  · rw [hballoc, List.map_map]
    rw [show ((fun kv : String × ℚ => kv.2 / b.get_total_monthly_expense) ∘
        fun c => (c, catSum es c)) =
        ((fun q => q / b.get_total_monthly_expense) ∘ fun c => catSum es c) from rfl]
    rw [← List.map_map, sum_map_div]
    rw [sum_catSum es (fun x hx => (hval (Entry.expense x) hx).2.2.1)]
    have hcong : es.map expenseNorm = es.map expenseRaw := by
      refine List.map_congr_left (fun e he => ?_)
      match e with
      | .expense x =>
        show specNormalizedMonthly x.amount x.recurrence = x.amount
        exact hnorm x he
      | .income i => rfl
    rw [hcong]
    have htoteq : b.get_total_monthly_expense = (es.map expenseRaw).sum := by
      rw [total_eq, hbent]
    rw [← htoteq, div_self htot]

/-- C4 witness: a single 100-per-month expense (normalized equals raw), so
the fractions sum to exactly 1. -/
theorem c4_fractions_sum_witness :
    wBudget4.get_monthly_expenses_as_fraction =
      .ok (wBudget4.allocations.map (fun kv =>
        (kv.1, kv.2 / wBudget4.get_total_monthly_expense))) ∧
    (wBudget4.allocations.map (fun kv =>
        kv.2 / wBudget4.get_total_monthly_expense)).sum = 1 := by
  refine c4_fractions_sum_amended [Entry.expense wMonthlyExpense] wBudget4
    (by decide) (ofEntries_eq _ (by decide)) ?_ ?_
  · intro x hx
    have h := List.mem_singleton.mp hx
    injection h with h2
    subst h2
    rfl
  · have htot : wBudget4.get_total_monthly_expense = 100 := by
      simp [wBudget4, Budget.get_total_monthly_expense, wMonthlyExpense]
    rw [htot]
    norm_num

/-- C8 counterexample: ".Csv" is accepted by a case-insensitive suffix test
(the claim's reading) but both file methods reject it — the source compares
against the two exact spellings ".csv" and ".CSV" only. -/
theorem c8_extension_counterexample :
    specCsvCaseInsensitive "a.Csv" = true ∧
    Budget.export_file exampleBudget5 "a.Csv" = .error pathExtensionErrorMsg ∧
    Budget.from_file "a.Csv" [] = .error pathExtensionErrorMsg :=
  ⟨by decide, rfl, rfl⟩

/-- C8 amended: both methods fail on the extension exactly when the path
ends in neither the exact suffix ".csv" nor ".CSV" (other casings such as
".Csv" are rejected); when the suffix matches, the path plays no further
role — export writes one row per entry and import runs the row loop. -/
theorem c8_extension_check (path : String) (b : Budget) (rows : List BudgetRow) :
    (¬ (pyEndsWith path ".csv" = true ∨ pyEndsWith path ".CSV" = true) →
      Budget.export_file b path = .error pathExtensionErrorMsg ∧
      Budget.from_file path rows = .error pathExtensionErrorMsg) ∧
    ((pyEndsWith path ".csv" = true ∨ pyEndsWith path ".CSV" = true) →
      Budget.export_file b path = .ok (b.entries.map Entry.to_budget_row) ∧
      Budget.from_file path rows =
        (fromFileLoop [] rows).bind (fun _ => Budget.ofArgs [])) := by
  have hok : csvExtensionOk path = true ↔
      (pyEndsWith path ".csv" = true ∨ pyEndsWith path ".CSV" = true) := by
    simp [csvExtensionOk]
  constructor
  · intro h
    have hfalse : csvExtensionOk path = false := by
      cases hcsv : csvExtensionOk path with
      | false => rfl
      | true => exact absurd (hok.mp hcsv) h
    constructor
    · unfold Budget.export_file
      rw [hfalse]
      rfl
    · unfold Budget.from_file
      rw [hfalse]
      rfl
  · intro h
    have htrue : csvExtensionOk path = true := hok.mpr h
    constructor
    · unfold Budget.export_file
      rw [htrue]
      rfl
    · unfold Budget.from_file
      rw [htrue]
      rfl

/-- C8 witness: a ".txt" path is rejected, a ".csv" path is accepted. -/
theorem c8_extension_check_witness :
    Budget.export_file exampleBudget5 "a.txt" = .error pathExtensionErrorMsg ∧
    Budget.export_file exampleBudget5 "b.csv" =
      .ok (exampleBudget5.entries.map Entry.to_budget_row) :=
  ⟨((c8_extension_check "a.txt" exampleBudget5 []).1 (by decide)).1,
   ((c8_extension_check "b.csv" exampleBudget5 []).2 (by decide)).1⟩

/-- C1: export writes one row per entry, the import loop decodes them all —
and then `from_file` returns `cls()`: the Budget it hands back is empty, so
the claimed round-trip equality of the entries fails on every non-empty
Budget, the five-entry example included. -/
theorem c1_export_import_loses_entries :
    Budget.ofEntries exampleEntries5 = .ok exampleBudget5 ∧
    Budget.export_file exampleBudget5 "b.csv" =
      .ok (exampleEntries5.map Entry.to_budget_row) ∧
    Budget.from_file "b.csv" (exampleEntries5.map Entry.to_budget_row) =
      .ok { balance := 0, entries := [], allocations := allocationsInit } ∧
    exampleEntries5 ≠ [] := by
  refine ⟨ofEntries_eq _ (by decide), rfl, ?_, by simp [exampleEntries5]⟩
  have hloop := fromFileLoop_isOk exampleEntries5 [] (by decide)
  obtain ⟨out, hout⟩ : ∃ out,
      fromFileLoop [] (exampleEntries5.map Entry.to_budget_row) = .ok out := by
    cases hfl : fromFileLoop [] (exampleEntries5.map Entry.to_budget_row) with
    | ok out => exact ⟨out, rfl⟩
    | error e =>
      rw [hfl] at hloop
      simp [Except.isOk, Except.toBool] at hloop
  show (fromFileLoop [] (exampleEntries5.map Entry.to_budget_row)).bind
      (fun _ => Budget.ofArgs []) =
    .ok { balance := 0, entries := [], allocations := allocationsInit }
  rw [hout]
  rfl

/-- C9 witness: the raw-amount characterization at a concrete budget. -/
theorem c9_total_monthly_expense_witness :
    wBudget4.get_total_monthly_expense =
      (wBudget4.entries.filterMap expenseAmt).sum :=
  (c9_total_monthly_expense wBudget4).1
